import Mathlib

/-!
Shallow embedding of the MST (Merkle Search Tree) helper module
`rsky-pds/src/repo/mst/util.rs` and of the token helpers in
`rsky-pds/src/account_manager/helpers/auth.rs`, together with theorems
checking the natural-language specification against that code.

Keys are modelled as lists of bytes (`List Nat`, each element a byte value).
The Rust code operates on UTF-8 `String`s; for the ASCII alphabet enforced by
the key validator, byte positions and character positions coincide (the spec
itself notes this), and the byte-level model of splitting on `/` and of the
allowed-character class agrees with the Rust `str` behaviour on all inputs,
because `/` (0x2F) never occurs inside a multi-byte UTF-8 sequence and no
byte of a multi-byte sequence lies in the allowed ASCII class.
-/

/-- Result of running a fallible Rust function: `ok` models `Ok(_)`, `err`
models `Err(anyhow!(_))` carrying the message, and `panic` models a Rust
panic (out-of-bounds indexing, `unwrap()` of `None`). -/
inductive RResult (α : Type) where
  | ok : α → RResult α
  | err : String → RResult α
  | panic : RResult α
deriving DecidableEq, Repr

/-- Content identifier (`libipld::Cid`): an opaque comparable value, modelled
as a natural number. -/
abbrev Cid := Nat

/-- A leaf entry of an MST node (`Leaf { key, value }`), with the key as raw
bytes. -/
structure Leaf where
  key : List Nat
  value : Cid
deriving DecidableEq, Repr

/-- Modelled from the spec: the in-memory `MST` handle produced by
`MST::load(storage, cid, layer)` (the `mst/mod.rs` file is not part of the
visible sources). Per spec §4.4, `load` attaches to an existing tree by
content identifier without eagerly loading descendants, so the handle is
just the pointer plus the optional layer hint; the storage handle plays no
role in the pure result. -/
structure MST where
  pointer : Cid
  layer : Option Nat
deriving DecidableEq, Repr

/-- Modelled from the spec: `MST::load` constructs a lazy subtree handle. -/
def MST.load (pointer : Cid) (layer : Option Nat) : MST :=
  ⟨pointer, layer⟩

/-- An entry of a node: either a subtree handle or a leaf (`NodeEntry`). -/
inductive NodeEntry where
  | mst : MST → NodeEntry
  | leaf : Leaf → NodeEntry
deriving DecidableEq, Repr

/-- `NodeEntry::is_leaf`. -/
def NodeEntry.is_leaf : NodeEntry → Bool
  | .mst _ => false
  | .leaf _ => true

/-- One leaf record of the canonical on-disk form (`TreeEntry`): prefix
length `p`, stored key bytes `k`, value pointer `v`, optional right subtree
`t`. -/
structure TreeEntry where
  p : Nat
  k : List Nat
  v : Cid
  t : Option Cid
deriving DecidableEq, Repr

/-- Canonical on-disk node representation (`NodeData`): optional left
subtree pointer `l` and the list of leaf records `e`. -/
structure NodeData where
  l : Option Cid
  e : List TreeEntry
deriving DecidableEq, Repr

/-- Byte-level version of the character class of the regex
`^[a-zA-Z0-9_\-:.]*$` used by `is_valid_chars`. -/
def allowedByte (b : Nat) : Bool :=
  (48 ≤ b && b ≤ 57) || (65 ≤ b && b ≤ 90) || (97 ≤ b && b ≤ 122) ||
    b == 95 || b == 45 || b == 58 || b == 46

/-- `is_valid_chars(input)`: the whole string matches
`^[a-zA-Z0-9_\-:.]*$` (the empty string matches, since the regex uses `*`). -/
def is_valid_chars (s : List Nat) : Bool :=
  s.all allowedByte

/-- Byte-level model of Rust `key.split("/").collect::<Vec<_>>()`: split on
byte 0x2F = 47. `"".split("/")` yields `[""]` and `"/".split("/")` yields
`["", ""]`, as in Rust. -/
def splitOnSlash : List Nat → List (List Nat)
  | [] => [[]]
  | b :: rest =>
    let r := splitOnSlash rest
    if b = 47 then [] :: r
    else
      match r with
      | [] => [[b]]
      | h :: t => (b :: h) :: t

/-- `is_valid_repo_mst_path(key)`: length at most 256 bytes, exactly two
segments around `/`, both non-empty and matching the allowed class. The
source always returns `Ok(bool)`, so the `Result` wrapper is dropped. -/
def is_valid_repo_mst_path (key : List Nat) : Bool :=
  decide (key.length ≤ 256) && ((splitOnSlash key).length == 2)
    && decide (0 < ((splitOnSlash key).getD 0 []).length)
    && decide (0 < ((splitOnSlash key).getD 1 []).length)
    && is_valid_chars ((splitOnSlash key).getD 0 [])
    && is_valid_chars ((splitOnSlash key).getD 1 [])

/-- Error message of `ensure_valid_mst_key` (the source interpolates the
offending key into the message; the model keeps the fixed part). -/
def invalidKeyMsg : String :=
  "Invalid MST Key"

/-- `ensure_valid_mst_key(key)`. -/
def ensure_valid_mst_key (key : List Nat) : RResult Unit :=
  if is_valid_repo_mst_path key then .ok () else .err invalidKeyMsg

/-- `count_prefix_len(a, b)`: for `i in 0..a.len()`, compare
`a.chars().nth(i).unwrap()` with `b.chars().nth(i).unwrap()`; stop at the
first mismatch. When `b` runs out before `a` with no mismatch found, the
`unwrap()` of `None` panics. (Byte model; the source indexes characters,
which coincides for the ASCII keys the validator admits.) -/
def count_prefix_len : List Nat → List Nat → RResult Nat
  | [], _ => .ok 0
  | _ :: _, [] => .panic
  | x :: xs, y :: ys =>
    if x = y then
      match count_prefix_len xs ys with
      | .ok n => .ok (n + 1)
      | .err s => .err s
      | .panic => .panic
    else .ok 0

/-- Error message for two adjacent subtree pointers in
`serialize_node_data`. -/
def twoSubtreesMsg : String :=
  "Not a valid node: two subtrees next to each other"

/-- Error message of a failed `u8::try_from(prefix_len)`. -/
def u8RangeMsg : String :=
  "out of range integral type conversion attempted"

/-- The `while i < entries.len()` loop of `serialize_node_data`, expressed
over the remaining entries. Faithful points: the source reads
`entries[i + 1]` before anything else, which panics on out-of-bounds when
the current entry is the last one; a non-leaf current entry is the
"two subtrees next to each other" error; when the following entry is a
subtree it is consumed as the trailing pointer; the leaf key is validated,
the prefix length against the previous key is computed (possibly
panicking), narrowed to `u8`, and the record stores `l.key[0..prefix_len]`
— the shared prefix — as its `k` bytes. -/
def serializeLoop : List NodeEntry → List Nat → List TreeEntry → RResult (List TreeEntry)
  | [], _, acc => .ok acc.reverse
  | _ :: [], _, _ => .panic
  | e :: next :: rest2, lastKey, acc =>
    match e with
    | .mst _ => .err twoSubtreesMsg
    | .leaf l =>
      match next with
      | .mst tr =>
        if is_valid_repo_mst_path l.key then
          match count_prefix_len lastKey l.key with
          | .ok plen =>
            if plen ≤ 255 then
              serializeLoop rest2 l.key
                (⟨plen, l.key.take plen, l.value, some tr.pointer⟩ :: acc)
            else .err u8RangeMsg
          | .err s => .err s
          | .panic => .panic
        else .err invalidKeyMsg
      | .leaf _ =>
        if is_valid_repo_mst_path l.key then
          match count_prefix_len lastKey l.key with
          | .ok plen =>
            if plen ≤ 255 then
              serializeLoop (next :: rest2) l.key
                (⟨plen, l.key.take plen, l.value, none⟩ :: acc)
            else .err u8RangeMsg
          | .err s => .err s
          | .panic => .panic
        else .err invalidKeyMsg

/-- `serialize_node_data(entries)`: a leading subtree entry becomes the left
pointer `l`, then the loop above processes the rest starting from
`last_key = ""`. -/
def serialize_node_data (entries : List NodeEntry) : RResult NodeData :=
  match entries with
  | .mst m :: rest =>
    match serializeLoop rest [] [] with
    | .ok es => .ok ⟨some m.pointer, es⟩
    | .err s => .err s
    | .panic => .panic
  | rest =>
    match serializeLoop rest [] [] with
    | .ok es => .ok ⟨none, es⟩
    | .err s => .err s
    | .panic => .panic

/-- The `layer - 1` computed on `Option<u32>` in `deserialize_node_data`:
underflow of the unsigned subtraction at layer 0 is a panic (debug
semantics of Rust integer overflow). -/
def layerDec : Option Nat → RResult (Option Nat)
  | none => .ok none
  | some 0 => .panic
  | some (l + 1) => .ok (some l)

/-- Error message of a failed `str::from_utf8` in `deserialize_node_data`. -/
def invalidUtf8Msg : String :=
  "invalid utf-8 sequence"

/-- The `for entry in data.e` loop of `deserialize_node_data`. Per record:
`str::from_utf8(entry.k)` (modelled as an ASCII check — a non-ASCII suffix
that is valid UTF-8 would fail the key validation on the very next line in
both model and source, differing only in the error message), then
`format!("{}{}", &last_key[0..p], key_str)` (the slice panics when
`p > last_key.len()`), `ensure_valid_mst_key`, and an optional lazy subtree
handle with decremented layer. -/
def deserializeLoop (layer : Option Nat) :
    List TreeEntry → List Nat → List NodeEntry → RResult (List NodeEntry)
  | [], _, acc => .ok acc.reverse
  | te :: rest, lastKey, acc =>
    if te.k.all (· < 128) then
      if te.p ≤ lastKey.length then
        let key := lastKey.take te.p ++ te.k
        if is_valid_repo_mst_path key then
          match te.t with
          | none => deserializeLoop layer rest key (.leaf ⟨key, te.v⟩ :: acc)
          | some tcid =>
            match layerDec layer with
            | .ok nl =>
              deserializeLoop layer rest key
                (.mst (MST.load tcid nl) :: .leaf ⟨key, te.v⟩ :: acc)
            | .err s => .err s
            | .panic => .panic
        else .err invalidKeyMsg
      else .panic
    else .err invalidUtf8Msg

/-- `deserialize_node_data(storage, data, layer)`: an optional leading lazy
subtree handle for `data.l`, then the record loop. The storage handle only
feeds the lazy `MST::load` handles and is dropped in the model. -/
def deserialize_node_data (data : NodeData) (layer : Option Nat) : RResult (List NodeEntry) :=
  match data.l with
  | some l =>
    match layerDec layer with
    | .ok nl => deserializeLoop layer data.e [] [.mst (MST.load l nl)]
    | .err s => .err s
    | .panic => .panic
  | none => deserializeLoop layer data.e [] []

/-- Round trip used by the spec's round-trip property:
`deserialize(serialize(entries))`, propagating failure. -/
def roundTrip (entries : List NodeEntry) (layer : Option Nat) : RResult (List NodeEntry) :=
  match serialize_node_data entries with
  | .ok d => deserialize_node_data d layer
  | .err s => .err s
  | .panic => .panic

/-! ### SHA-256 (the `sha2` crate's `Sha256::digest`, modelled bit-exactly
with natural-number words reduced mod 2^32) -/

/-- Reduce to a 32-bit word. -/
def w32 (x : Nat) : Nat :=
  x % 4294967296

/-- Right rotation of a 32-bit word. -/
def rotr32 (n x : Nat) : Nat :=
  w32 ((x >>> n) ||| (x <<< (32 - n)))

/-- SHA-256 small sigma 0. -/
def sigmaSmall0 (x : Nat) : Nat :=
  (rotr32 7 x) ^^^ (rotr32 18 x) ^^^ (x >>> 3)

/-- SHA-256 small sigma 1. -/
def sigmaSmall1 (x : Nat) : Nat :=
  (rotr32 17 x) ^^^ (rotr32 19 x) ^^^ (x >>> 10)

/-- SHA-256 big sigma 0. -/
def sigmaBig0 (x : Nat) : Nat :=
  (rotr32 2 x) ^^^ (rotr32 13 x) ^^^ (rotr32 22 x)

/-- SHA-256 big sigma 1. -/
def sigmaBig1 (x : Nat) : Nat :=
  (rotr32 6 x) ^^^ (rotr32 11 x) ^^^ (rotr32 25 x)

/-- SHA-256 choice function; the complement of a 32-bit word `x` is
`4294967295 - x`. -/
def chf (x y z : Nat) : Nat :=
  (x &&& y) ^^^ ((4294967295 - x) &&& z)

/-- SHA-256 majority function. -/
def majf (x y z : Nat) : Nat :=
  (x &&& y) ^^^ (x &&& z) ^^^ (y &&& z)

/-- The 64 SHA-256 round constants. -/
def K256 : List Nat :=
  [1116352408, 1899447441, 3049323471, 3921009573, 961987163,
   1508970993, 2453635748, 2870763221, 3624381080, 310598401,
   607225278, 1426881987, 1925078388, 2162078206, 2614888103,
   3248222580, 3835390401, 4022224774, 264347078, 604807628,
   770255983, 1249150122, 1555081692, 1996064986, 2554220882,
   2821834349, 2952996808, 3210313671, 3336571891, 3584528711,
   113926993, 338241895, 666307205, 773529912, 1294757372,
   1396182291, 1695183700, 1986661051, 2177026350, 2456956037,
   2730485921, 2820302411, 3259730800, 3345764771, 3516065817,
   3600352804, 4094571909, 275423344, 430227734, 506948616,
   659060556, 883997877, 958139571, 1322822218, 1537002063,
   1747873779, 1955562222, 2024104815, 2227730452, 2361852424,
   2428436474, 2756734187, 3204031479, 3329325298]

/-- SHA-256 working state: the eight 32-bit words a–h. -/
structure Hash8 where
  a : Nat
  b : Nat
  c : Nat
  d : Nat
  e : Nat
  f : Nat
  g : Nat
  h : Nat
deriving DecidableEq, Repr

/-- Initial SHA-256 state. -/
def sha256init : Hash8 :=
  ⟨1779033703, 3144134277, 1013904242, 2773480762,
   1359893119, 2600822924, 528734635, 1541459225⟩

/-- One SHA-256 compression round. -/
def sha256Step (s : Hash8) (k w : Nat) : Hash8 :=
  let t1 := w32 (s.h + sigmaBig1 s.e + chf s.e s.f s.g + k + w)
  let t2 := w32 (sigmaBig0 s.a + majf s.a s.b s.c)
  ⟨w32 (t1 + t2), s.a, s.b, s.c, w32 (s.d + t1), s.e, s.f, s.g⟩

/-- Extend the 16 message words by `n` further schedule words. -/
def sha256Schedule (w : List Nat) : Nat → List Nat
  | 0 => w
  | n + 1 =>
    let prev := sha256Schedule w n
    prev ++ [w32 (sigmaSmall1 (prev.getD (14 + n) 0) + prev.getD (9 + n) 0 +
      sigmaSmall0 (prev.getD (1 + n) 0) + prev.getD n 0)]

/-- Compress one 64-byte block into the state. -/
def sha256Compress (s : Hash8) (block : List Nat) : Hash8 :=
  let w16 := (List.range 16).map fun i =>
    (block.getD (4 * i) 0) <<< 24 + (block.getD (4 * i + 1) 0) <<< 16 +
      (block.getD (4 * i + 2) 0) <<< 8 + block.getD (4 * i + 3) 0
  let w := sha256Schedule w16 48
  let t := (K256.zip w).foldl (fun st kw => sha256Step st kw.1 kw.2) s
  ⟨w32 (s.a + t.a), w32 (s.b + t.b), w32 (s.c + t.c), w32 (s.d + t.d),
   w32 (s.e + t.e), w32 (s.f + t.f), w32 (s.g + t.g), w32 (s.h + t.h)⟩

/-- SHA-256 padding: append 0x80, zero bytes to 56 mod 64, and the 64-bit
big-endian bit length. -/
def sha256pad (m : List Nat) : List Nat :=
  let bitLen := 8 * m.length
  let z := (119 - m.length % 64) % 64
  m ++ [128] ++ List.replicate z 0 ++
    (List.range 8).map fun i => bitLen / 2 ^ (8 * (7 - i)) % 256

/-- Fold the padded message block by block. -/
def sha256Blocks (s : Hash8) : List Nat → Hash8
  | [] => s
  | b :: rest => sha256Blocks (sha256Compress s ((b :: rest).take 64)) ((b :: rest).drop 64)
termination_by bs => bs.length
decreasing_by simp [List.length_drop]; omega

/-- Big-endian bytes of a 32-bit word. -/
def wordBytes (x : Nat) : List Nat :=
  [x >>> 24 % 256, x >>> 16 % 256, x >>> 8 % 256, x % 256]

/-- `Sha256::digest`: the 32 digest bytes of a byte string. -/
def sha256 (m : List Nat) : List Nat :=
  let s := sha256Blocks sha256init (sha256pad m)
  wordBytes s.a ++ wordBytes s.b ++ wordBytes s.c ++ wordBytes s.d ++
    wordBytes s.e ++ wordBytes s.f ++ wordBytes s.g ++ wordBytes s.h

/-- The byte scan of `leading_zeros_on_hash`: each byte adds 1 for each of
`< 64`, `< 16`, `< 4`, plus 1 when it is 0; the loop continues only on a
zero byte. -/
def leadingZerosLoop : List Nat → Nat
  | [] => 0
  | b :: rest =>
    let add := (if b < 64 then 1 else 0) + (if b < 16 then 1 else 0) +
      (if b < 4 then 1 else 0)
    if b = 0 then add + 1 + leadingZerosLoop rest else add

/-- `leading_zeros_on_hash(key)`: scan the SHA-256 digest of the key. The
source returns `Ok(u32)` and cannot fail; the count is at most 128. -/
def leading_zeros_on_hash (key : List Nat) : Nat :=
  leadingZerosLoop (sha256 key)

/-! ### Content identifiers for node data -/

/-- Little-endian base-256 digits of a natural number (empty for 0). -/
def natBytes : Nat → List Nat
  | 0 => []
  | n + 1 => (n + 1) % 256 :: natBytes ((n + 1) / 256)
decreasing_by exact Nat.div_lt_self (Nat.succ_pos n) (by omega)

/-- Length-prefixed encoding of a natural number. -/
def encodeNat (n : Nat) : List Nat :=
  (natBytes n).length :: natBytes n

/-- Encoding of an optional content identifier. -/
def encodeOptCid : Option Cid → List Nat
  | none => [0]
  | some c => 1 :: encodeNat c

/-- Encoding of one canonical leaf record. -/
def encodeTreeEntry (te : TreeEntry) : List Nat :=
  encodeNat te.p ++ encodeNat te.k.length ++ te.k ++ encodeNat te.v ++ encodeOptCid te.t

/-- Modelled from the spec: the canonical binary encoding of a `NodeData`
produced by the generic encoding library (`crate::common::ipld` is not part
of the visible sources; spec §4.3 and §6 require only that it is a
deterministic canonical encoding of the structure). -/
def encodeNodeData (d : NodeData) : List Nat :=
  encodeOptCid d.l ++ encodeNat d.e.length ++ (d.e.map encodeTreeEntry).flatten

/-- Fold digest bytes into one natural number. -/
def natOfBytes (bs : List Nat) : Nat :=
  bs.foldl (fun a b => a * 256 + b) 0

/-- Modelled from the spec: `ipld::cid_for_cbor(&data)` — the content
identifier is the hash of the structure's canonical binary encoding
(spec §4.3: "serialize then hash the canonical bytes"). -/
def cid_for_cbor (d : NodeData) : Cid :=
  natOfBytes (sha256 (encodeNodeData d))

/-- `cid_for_entries(entries)`: serialize, then take the content identifier
of the canonical bytes. -/
def cid_for_entries (entries : List NodeEntry) : RResult Cid :=
  match serialize_node_data entries with
  | .ok d => .ok (cid_for_cbor d)
  | .err s => .err s
  | .panic => .panic

/-! ### Token helpers (`account_manager/helpers/auth.rs`) -/

/-- Modelled from the spec: the scope enumeration
(`crate::auth_verifier::AuthScope` is not part of the visible sources);
only the two scopes the token helpers mention are modelled, with their
distinct wire strings. -/
inductive AuthScope where
  | access : AuthScope
  | refresh : AuthScope
deriving DecidableEq, Repr

/-- Modelled from the spec: `AuthScope::as_str`. -/
def AuthScope.as_str : AuthScope → String
  | .access => "com.atproto.access"
  | .refresh => "com.atproto.refresh"

/-- Durations of the `jwt_simple` crate, modelled in seconds. -/
abbrev Duration := Nat

/-- `Duration::from_hours`. -/
def Duration.from_hours (n : Nat) : Duration :=
  3600 * n

/-- `Duration::from_days`. -/
def Duration.from_days (n : Nat) : Duration :=
  86400 * n

/-- `CreateTokensOpts`; the secp256k1 `Keypair` is modelled by its secret
bytes. -/
structure CreateTokensOpts where
  did : String
  jwt_key : List Nat
  service_did : String
  scope : Option AuthScope
  jti : Option String
  expires_in : Option Duration
deriving DecidableEq, Repr

/-- `CustomClaimObj`: the custom claim object carrying the scope string. -/
structure CustomClaimObj where
  scope : String
deriving DecidableEq, Repr

/-- The claim set handed to the signer (`jwt_simple`'s `Claims` builder,
restricted to the fields this code sets). -/
structure Claims where
  custom : CustomClaimObj
  expires_in : Duration
  audience : String
  subject : String
  jwt_id : Option String
deriving DecidableEq, Repr

/-- `Claims::with_custom_claims(custom, expires_in)`. -/
def Claims.with_custom_claims (c : CustomClaimObj) (d : Duration) : Claims :=
  ⟨c, d, "", "", none⟩

/-- `claims.with_audience(aud)`. -/
def Claims.with_audience (cl : Claims) (aud : String) : Claims :=
  { cl with audience := aud }

/-- `claims.with_subject(sub)`. -/
def Claims.with_subject (cl : Claims) (sub : String) : Claims :=
  { cl with subject := sub }

/-- `claims.with_jwt_id(jti)`. -/
def Claims.with_jwt_id (cl : Claims) (jti : String) : Claims :=
  { cl with jwt_id := some jti }

/-- Modelled from the spec: ES256K signing of the claims by the external
`jwt_simple` library — a signed, time-bounded credential over the claims
(spec §6). The token is modelled as the signing key together with the exact
claim set it certifies; external-library failure paths (key parsing,
signing) are not modelled, as the claims concern only the claim content. -/
structure SignedToken where
  key : List Nat
  claims : Claims
deriving DecidableEq, Repr

/-- Modelled from the spec: `ES256kKeyPair::from_bytes(..)` followed by
`key.sign(claims)`. -/
def signClaims (key : List Nat) (c : Claims) : SignedToken :=
  ⟨key, c⟩

/-- `create_access_token(opts)`: scope defaults to `AuthScope::Access`,
expiry to two hours; no jti is set. -/
def create_access_token (opts : CreateTokensOpts) : SignedToken :=
  let scope := opts.scope.getD AuthScope.access
  let expires_in := opts.expires_in.getD (Duration.from_hours 2)
  signClaims opts.jwt_key
    (((Claims.with_custom_claims ⟨scope.as_str⟩ expires_in).with_audience
      opts.service_did).with_subject opts.did)

/-- `create_refresh_token(opts)`: the jti defaults to `get_random_str()` —
the value the random generator would produce is passed explicitly as
`randomStr` to keep the function pure — expiry defaults to ninety days, and
the scope embedded in the claims is always `AuthScope::Refresh`
(`opts.scope` is discarded by the `..` destructuring). -/
def create_refresh_token (randomStr : String) (opts : CreateTokensOpts) : SignedToken :=
  let jti := opts.jti.getD randomStr
  let expires_in := opts.expires_in.getD (Duration.from_days 90)
  signClaims opts.jwt_key
    ((((Claims.with_custom_claims ⟨AuthScope.refresh.as_str⟩ expires_in).with_audience
      opts.service_did).with_subject opts.did).with_jwt_id jti)

/-! ### Spec-side definitions (stated from the specification's words, for
comparison against the code) -/

/-- An entry list contains two consecutive subtree pointers. -/
def hasAdjacentMst : List NodeEntry → Bool
  | .mst _ :: .mst _ :: _ => true
  | _ :: rest => hasAdjacentMst rest
  | [] => false

/-- Length of the longest common prefix of two byte strings (the spec's
"count of bytes shared"). -/
def lcpLen : List Nat → List Nat → Nat
  | [], _ => 0
  | _ :: _, [] => 0
  | x :: xs, y :: ys => if x = y then lcpLen xs ys + 1 else 0

/-- The claim's digest scan: each byte adds 4 if it is 0, 3 if `< 4`, 2 if
`< 16`, 1 if `< 64`, else 0, and the scan stops at the first non-zero byte
after adding its partial contribution. -/
def scanSpecC7 : List Nat → Nat
  | [] => 0
  | b :: rest =>
    if b = 0 then 4 + scanSpecC7 rest
    else if b < 4 then 3
    else if b < 16 then 2
    else if b < 64 then 1
    else 0

/-- The spec's acceptance condition for a key: it splits on `/` into exactly
two non-empty segments (equivalently, it is `s0 ++ "/" ++ s1` with both
segments slash-free — here implied by the character class, which excludes
`/`), has overall length at most 256, and both segments use only characters
from the allowed class. -/
def specKeyOk (key : List Nat) : Prop :=
  key.length ≤ 256 ∧ ∃ s0 s1, key = s0 ++ 47 :: s1 ∧ s0 ≠ [] ∧ s1 ≠ [] ∧
    (∀ b ∈ s0, allowedByte b = true) ∧ (∀ b ∈ s1, allowedByte b = true)

/-- A well-formed 256-byte key: `a/` followed by 254 letters `a`. -/
def key256 : List Nat :=
  97 :: 47 :: List.replicate 254 97

/-- The same key with one more letter: 257 bytes. -/
def key257 : List Nat :=
  97 :: 47 :: List.replicate 255 97

/-! ### Lemmas about splitting on the slash byte -/

lemma splitOnSlash_ne_nil (s : List Nat) : splitOnSlash s ≠ [] := by
  cases s with
  | nil => simp [splitOnSlash]
  | cons b rest =>
    simp only [splitOnSlash]
    split
    · simp
    · split <;> simp

lemma splitOnSlash_no_slash (s : List Nat) (h : ∀ b ∈ s, b ≠ 47) :
    splitOnSlash s = [s] := by
  induction s with
  | nil => rfl
  | cons b rest ih =>
    have hb : b ≠ 47 := h b (by simp)
    have hr : splitOnSlash rest = [rest] := ih fun x hx => h x (by simp [hx])
    simp [splitOnSlash, hb, hr]

lemma splitOnSlash_append (s0 rest : List Nat) (h : ∀ b ∈ s0, b ≠ 47) :
    splitOnSlash (s0 ++ 47 :: rest) = s0 :: splitOnSlash rest := by
  induction s0 with
  | nil => simp [splitOnSlash]
  | cons b s ih =>
    have hb : b ≠ 47 := h b (by simp)
    have hr := ih fun x hx => h x (by simp [hx])
    simp only [List.cons_append, splitOnSlash, List.append_eq, if_neg hb, hr]

lemma splitOnSlash_eq_singleton (s a : List Nat) (h : splitOnSlash s = [a]) :
    s = a ∧ 47 ∉ a := by
  induction s generalizing a with
  | nil =>
    simp only [splitOnSlash] at h
    obtain rfl : a = [] := by simpa using h.symm
    exact ⟨rfl, by simp⟩
  | cons b rest ih =>
    simp only [splitOnSlash] at h
    by_cases hb : b = 47
    · rw [if_pos hb] at h
      obtain ⟨x, xs, hr⟩ : ∃ x xs, splitOnSlash rest = x :: xs := by
        cases hr : splitOnSlash rest with
        | nil => exact absurd hr (splitOnSlash_ne_nil rest)
        | cons x xs => exact ⟨x, xs, rfl⟩
      rw [hr] at h
      simp at h
    · rw [if_neg hb] at h
      cases hr : splitOnSlash rest with
      | nil => exact absurd hr (splitOnSlash_ne_nil rest)
      | cons x xs =>
        rw [hr] at h
        cases xs with
        | nil =>
          have ha : a = b :: x := by simpa using h.symm
          obtain ⟨hx1, hx2⟩ := ih x hr
          refine ⟨?_, ?_⟩
          · rw [ha, hx1]
          · rw [ha]
            simp only [List.mem_cons, not_or]
            exact ⟨Ne.symm hb, hx2⟩
        | cons y ys => simp at h

lemma splitOnSlash_eq_pair (s a b : List Nat) (h : splitOnSlash s = [a, b]) :
    s = a ++ 47 :: b ∧ 47 ∉ a ∧ 47 ∉ b := by
  induction s generalizing a with
  | nil =>
    simp [splitOnSlash] at h
  | cons c rest ih =>
    simp only [splitOnSlash] at h
    by_cases hc : c = 47
    · rw [if_pos hc] at h
      have hsplit : [] = a ∧ splitOnSlash rest = [b] := by
        constructor
        · exact (List.cons.injEq .. ▸ h).1
        · exact (List.cons.injEq .. ▸ h).2
      obtain ⟨ha, hsr⟩ := hsplit
      obtain ⟨hr1, hr2⟩ := splitOnSlash_eq_singleton rest b hsr
      subst hc
      refine ⟨?_, ?_, hr2⟩
      · rw [← ha, hr1]
        rfl
      · rw [← ha]
        simp
    · rw [if_neg hc] at h
      cases hr : splitOnSlash rest with
      | nil => exact absurd hr (splitOnSlash_ne_nil rest)
      | cons x xs =>
        rw [hr] at h
        have hax : c :: x = a ∧ xs = [b] := by simpa using h
        obtain ⟨ha, hxs⟩ := hax
        subst hxs
        obtain ⟨hr1, hr2, hr3⟩ := ih x hr
        refine ⟨?_, ?_, hr3⟩
        · rw [← ha, hr1]
          rfl
        · rw [← ha]
          simp only [List.mem_cons, not_or]
          exact ⟨Ne.symm hc, hr2⟩

lemma allowedByte_ne_slash {b : Nat} (h : allowedByte b = true) : b ≠ 47 := by
  intro hb
  subst hb
  exact absurd h (by decide)

lemma valid_iff_spec (key : List Nat) :
    is_valid_repo_mst_path key = true ↔ specKeyOk key := by
  constructor
  · intro h
    unfold is_valid_repo_mst_path at h
    simp only [Bool.and_eq_true, decide_eq_true_eq, beq_iff_eq, is_valid_chars,
      List.all_eq_true] at h
    obtain ⟨⟨⟨⟨⟨hlen, hsp⟩, h0⟩, h1⟩, hc0⟩, hc1⟩ := h
    obtain ⟨a, b, hab⟩ : ∃ a b, splitOnSlash key = [a, b] := by
      cases hsp1 : splitOnSlash key with
      | nil => rw [hsp1] at hsp; simp at hsp
      | cons x xs =>
        cases xs with
        | nil => rw [hsp1] at hsp; simp at hsp
        | cons y ys =>
          cases ys with
          | nil => exact ⟨x, y, rfl⟩
          | cons z zs => rw [hsp1] at hsp; simp at hsp
    rw [hab] at h0 h1 hc0 hc1
    simp only [List.getD_cons_zero, List.getD_cons_succ] at h0 h1 hc0 hc1
    obtain ⟨hk, -, -⟩ := splitOnSlash_eq_pair key a b hab
    refine ⟨hlen, a, b, hk, ?_, ?_, hc0, hc1⟩
    · intro hnil
      rw [hnil] at h0
      simp at h0
    · intro hnil
      rw [hnil] at h1
      simp at h1
  · rintro ⟨hlen, a, b, hk, ha, hb, hca, hcb⟩
    have hsplit : splitOnSlash key = [a, b] := by
      rw [hk, splitOnSlash_append a b fun x hx => allowedByte_ne_slash (hca x hx),
        splitOnSlash_no_slash b fun x hx => allowedByte_ne_slash (hcb x hx)]
    unfold is_valid_repo_mst_path
    rw [hsplit]
    simp only [Bool.and_eq_true, decide_eq_true_eq, beq_iff_eq, is_valid_chars,
      List.all_eq_true, List.getD_cons_zero, List.getD_cons_succ, List.length_cons,
      List.length_nil]
    refine ⟨⟨⟨⟨⟨hlen, by simp⟩, ?_⟩, ?_⟩, hca⟩, hcb⟩
    · cases a with
      | nil => exact absurd rfl ha
      | cons x xs => simp
    · cases b with
      | nil => exact absurd rfl hb
      | cons x xs => simp

/-! ### Lemmas about serialization with adjacent subtree pointers -/

lemma serializeLoop_mst_head (m : MST) (rest : List NodeEntry) (lastKey : List Nat)
    (acc : List TreeEntry) (d : List TreeEntry) :
    serializeLoop (.mst m :: rest) lastKey acc ≠ .ok d := by
  cases rest <;> simp [serializeLoop]

lemma serializeLoop_adjacent_not_ok :
    ∀ (n : Nat) (rest : List NodeEntry) (lastKey : List Nat) (acc : List TreeEntry),
      rest.length ≤ n → hasAdjacentMst rest = true →
      ∀ d, serializeLoop rest lastKey acc ≠ .ok d := by
  intro n
  induction n with
  | zero =>
    intro rest lastKey acc hlen hadj d
    interval_cases h : rest.length
    · rw [List.length_eq_zero] at h
      rw [h] at hadj
      simp [hasAdjacentMst] at hadj
  | succ n ih =>
    intro rest lastKey acc hlen hadj d
    match rest with
    | [] => simp [hasAdjacentMst] at hadj
    | [e] => simp [serializeLoop]
    | .mst m :: next :: rest2 => simp [serializeLoop]
    | .leaf l :: next :: rest2 =>
      have hadj2 : hasAdjacentMst (next :: rest2) = true := by
        simpa [hasAdjacentMst] using hadj
      match next with
      | .leaf l2 =>
        simp only [serializeLoop]
        split
        · cases hcp : count_prefix_len lastKey l.key with
          | ok plen =>
            simp only [hcp]
            split
            · exact ih (.leaf l2 :: rest2) l.key _ (by simpa using Nat.le_of_succ_le_succ hlen) hadj2 d
            · simp
          | err s => simp [hcp]
          | panic => simp [hcp]
        · simp
      | .mst tr =>
        simp only [serializeLoop]
        split
        · cases hcp : count_prefix_len lastKey l.key with
          | ok plen =>
            simp only [hcp]
            split
            · match rest2 with
              | [] => simp [hasAdjacentMst] at hadj2
              | .mst m2 :: rest3 => exact serializeLoop_mst_head m2 rest3 l.key _ d
              | .leaf l3 :: rest3 =>
                have hadj3 : hasAdjacentMst (NodeEntry.leaf l3 :: rest3) = true := by
                  simpa [hasAdjacentMst] using hadj2
                exact ih (.leaf l3 :: rest3) l.key _ (by simp at hlen ⊢; omega) hadj3 d
            · simp
          | err s => simp [hcp]
          | panic => simp [hcp]
        · simp

/-! ### Lemmas about the prefix-length computation and the digest scan -/

lemma count_prefix_len_ok (a b : List Nat)
    (h : ¬(b.length < a.length ∧ a.take b.length = b)) :
    count_prefix_len a b = .ok (lcpLen a b) := by
  induction a generalizing b with
  | nil => cases b <;> rfl
  | cons x xs ih =>
    cases b with
    | nil =>
      exact absurd ⟨by simp, by simp⟩ h
    | cons y ys =>
      by_cases hxy : x = y
      · subst hxy
        have hnext : ¬(ys.length < xs.length ∧ xs.take ys.length = ys) := by
          intro ⟨h1, h2⟩
          exact h ⟨by simpa using Nat.succ_lt_succ h1, by simp [h2]⟩
        simp only [count_prefix_len, lcpLen, if_pos rfl, ih ys hnext, eq_self_iff_true, if_true]
      · simp only [count_prefix_len, lcpLen, if_neg hxy]

lemma count_prefix_len_panic (a b : List Nat)
    (h1 : b.length < a.length) (h2 : a.take b.length = b) :
    count_prefix_len a b = .panic := by
  induction a generalizing b with
  | nil => simp at h1
  | cons x xs ih =>
    cases b with
    | nil => rfl
    | cons y ys =>
      simp only [List.length_cons, List.take_succ_cons, List.cons.injEq] at h1 h2
      obtain ⟨hxy, hys⟩ := h2
      subst hxy
      simp only [count_prefix_len, if_pos rfl, ih ys (by omega) hys, eq_self_iff_true, if_true]

lemma leadingZerosLoop_eq_scanSpec (d : List Nat) :
    leadingZerosLoop d = scanSpecC7 d := by
  induction d with
  | nil => rfl
  | cons b rest ih =>
    simp only [leadingZerosLoop, scanSpecC7]
    rw [ih]
    split_ifs <;> omega

lemma serialize_adjacent_not_ok :
    ∀ (entries : List NodeEntry), hasAdjacentMst entries = true →
      ∀ d, serialize_node_data entries ≠ .ok d := by
  intro entries hadj d
  have hloop : ∀ (rest : List NodeEntry) (lk : List Nat) (acc : List TreeEntry),
      hasAdjacentMst rest = true → ∀ es, serializeLoop rest lk acc ≠ .ok es :=
    fun rest lk acc h es =>
      serializeLoop_adjacent_not_ok rest.length rest lk acc le_rfl h es
  match entries with
  | [] => simp [hasAdjacentMst] at hadj
  | .leaf l :: rest =>
    simp only [serialize_node_data]
    cases hsl : serializeLoop (.leaf l :: rest) [] [] with
    | ok es => exact absurd hsl (hloop _ _ _ hadj es)
    | err s => simp
    | panic => simp
  | .mst m :: rest =>
    simp only [serialize_node_data]
    cases hsl : serializeLoop rest [] [] with
    | ok es =>
      exfalso
      match rest, hsl with
      | [], hsl => simp [hasAdjacentMst] at hadj
      | .mst m2 :: rest3, hsl => exact serializeLoop_mst_head m2 rest3 [] [] es hsl
      | .leaf l2 :: rest3, hsl =>
        have h2 : hasAdjacentMst (NodeEntry.leaf l2 :: rest3) = true := by
          simpa [hasAdjacentMst] using hadj
        exact hloop _ [] [] h2 es hsl
    | err s => simp
    | panic => simp

/-! ### Claim theorems -/

/-- C1: the claim states that `deserialize(serialize(entries)) == entries`
for every valid, well-formed entry list. The code refutes it: on the
well-formed node of two leaves `a/b`, `a/c` serialization itself panics
(`entries[i + 1]` out of bounds), and on the well-formed list whose last
entry is a subtree pointer serialization succeeds but stores the shared
prefix instead of the suffix, so deserialization reconstructs the empty key
and fails validation — the round trip never returns the original list. -/
theorem c1_round_trip_fails_on_code :
    roundTrip [.leaf ⟨[97, 47, 98], 7⟩, .leaf ⟨[97, 47, 99], 8⟩] none = .panic ∧
    serialize_node_data [.leaf ⟨[97, 47, 98], 7⟩, .mst ⟨5, none⟩]
      = .ok ⟨none, [⟨0, [], 7, some 5⟩]⟩ ∧
    roundTrip [.leaf ⟨[97, 47, 98], 7⟩, .mst ⟨5, none⟩] none = .err invalidKeyMsg :=
  ⟨rfl, rfl, rfl⟩

/-- C2: the claim states each emitted leaf record carries the suffix of the
key with the shared prefix stripped. The code stores `key[0..prefix_len]`
— the shared prefix itself: for the node `[a/b, a/c, subtree]` the second
record has prefix length 2 but key bytes `"a/"` (the prefix) where the
claim requires `"c"` (the suffix). -/
theorem c2_stores_prefix_not_suffix :
    serialize_node_data [.leaf ⟨[97, 47, 98], 7⟩, .leaf ⟨[97, 47, 99], 8⟩, .mst ⟨5, none⟩]
      = .ok ⟨none, [⟨0, [], 7, none⟩, ⟨2, [97, 47], 8, some 5⟩]⟩ :=
  rfl

/-- C3: the claim states `serialize_node_data` is total on well-formed entry
lists, including a node of two leaves. The code refutes it: reading
`entries[i + 1]` panics out of bounds whenever the last entry is a leaf, so
both the two-leaf node and the single-leaf node panic. -/
theorem c3_serialize_panics_on_leaf_tail :
    serialize_node_data [.leaf ⟨[97, 47, 98], 7⟩, .leaf ⟨[97, 47, 99], 8⟩] = .panic ∧
    serialize_node_data [.leaf ⟨[97, 47, 98], 7⟩] = .panic :=
  ⟨rfl, rfl⟩

/-- C4: the claim (and the code's own comment) states the validator rejects
keys whose record-id segment is `.` or `..`. The code accepts both:
`is_valid_repo_mst_path` checks only length, segment count and character
class, and `.` and `..` pass the class, so `"a/."` and `"a/.."` are
accepted and `ensure_valid_mst_key` does not raise. -/
theorem c4_dot_segments_accepted :
    is_valid_repo_mst_path [97, 47, 46] = true ∧
    is_valid_repo_mst_path [97, 47, 46, 46] = true ∧
    ensure_valid_mst_key [97, 47, 46] = .ok () ∧
    ensure_valid_mst_key [97, 47, 46, 46] = .ok () :=
  ⟨rfl, rfl, rfl, rfl⟩

/-- C5 counterexample: on the entry list of exactly two adjacent subtree
pointers, `serialize_node_data` panics on out-of-bounds indexing instead of
returning the structural `Err` the claim requires. -/
theorem c5_counterexample :
    serialize_node_data [.mst ⟨1, none⟩, .mst ⟨2, none⟩] = .panic :=
  rfl

/-- C5 (amended): for every entry list containing two consecutive subtree
pointers, `serialize_node_data` never succeeds — it never silently drops a
pointer; it returns the structural error "two subtrees next to each other"
when the scan reaches the pair with a further entry following (as in the
concrete node below), and otherwise fails earlier with a panic on
out-of-bounds indexing or a key-validation error. -/
theorem c5_no_adjacent_subtrees_amended :
    (∀ entries : List NodeEntry, hasAdjacentMst entries = true →
      ∀ d, ¬ serialize_node_data entries = .ok d) ∧
    serialize_node_data [.leaf ⟨[97, 47, 98], 7⟩, .mst ⟨1, none⟩, .mst ⟨2, none⟩,
      .leaf ⟨[97, 47, 99], 8⟩] = .err twoSubtreesMsg :=
  ⟨fun entries hadj d => serialize_adjacent_not_ok entries hadj d, rfl⟩

set_option maxRecDepth 4000 in
/-- C6: the key validator accepts a key iff it splits on `/` into exactly
two non-empty segments, has overall length at most 256, and both segments
use only characters from `[A-Za-z0-9_\-:.]`; and the boundary cases: an
otherwise well-formed 256-byte key is accepted, the 257-byte key is
rejected, single- and triple-segment keys are rejected, and keys containing
`@` (64) or space (32) are rejected. -/
theorem c6_validator_boundary :
    (∀ key : List Nat, is_valid_repo_mst_path key = true ↔ specKeyOk key) ∧
    is_valid_repo_mst_path key256 = true ∧
    is_valid_repo_mst_path key257 = false ∧
    is_valid_repo_mst_path [97, 98, 99] = false ∧
    is_valid_repo_mst_path [97, 47, 98, 47, 99] = false ∧
    is_valid_repo_mst_path [97, 47, 98, 64, 99] = false ∧
    is_valid_repo_mst_path [97, 47, 98, 32, 99] = false :=
  ⟨valid_iff_spec, by decide, by decide, by decide, by decide, by decide, by decide⟩

/-- C7: for every key byte string, `leading_zeros_on_hash` equals the count
obtained by scanning the SHA-256 digest from the front, where each byte
adds 4 if it is 0, 3 if `< 4`, 2 if `< 16`, 1 if `< 64`, else 0, and the
scan stops at the first non-zero byte after adding its partial
contribution. -/
theorem c7_fanout_rule (key : List Nat) :
    leading_zeros_on_hash key = scanSpecC7 (sha256 key) :=
  leadingZerosLoop_eq_scanSpec (sha256 key)

/-- C8: `serialize_node_data` and `cid_for_entries` are pure functions of
the entry list: equal entry lists give identical `NodeData` and identical
content identifiers (the embedding is stateless exactly because the source
reads no state besides its argument), and the content identifier factors
through the serialized node data — equal canonical data gives equal
identifiers regardless of how the entries were produced. -/
theorem c8_serialization_deterministic :
    (∀ e1 e2 : List NodeEntry, e1 = e2 →
      serialize_node_data e1 = serialize_node_data e2 ∧
      cid_for_entries e1 = cid_for_entries e2) ∧
    (∀ e1 e2 : List NodeEntry, serialize_node_data e1 = serialize_node_data e2 →
      cid_for_entries e1 = cid_for_entries e2) := by
  constructor
  · intro e1 e2 h
    subst h
    exact ⟨rfl, rfl⟩
  · intro e1 e2 h
    unfold cid_for_entries
    rw [h]

/-- C9 counterexample: the valid keys `a/bc` and `a/b` — `b` a proper
prefix of `a` and shorter than it — make `count_prefix_len(a, b)` panic on
`unwrap()` of `None`, refuting the claim that it is defined for every pair
of valid keys. -/
theorem c9_counterexample :
    is_valid_repo_mst_path [97, 47, 98, 99] = true ∧
    is_valid_repo_mst_path [97, 47, 98] = true ∧
    count_prefix_len [97, 47, 98, 99] [97, 47, 98] = .panic :=
  ⟨rfl, rfl, rfl⟩

/-- C9 (amended): `count_prefix_len(a, b)` returns the length of the
longest common prefix of `a` and `b` whenever `b` is not a proper prefix of
`a` — in particular whenever `b` is shorter than `a` but differs from `a`
within its length; when `b` is a proper prefix of `a` the `unwrap()` of
`None` panics. -/
theorem c9_count_prefix_len_amended :
    (∀ a b : List Nat, ¬(b.length < a.length ∧ a.take b.length = b) →
      count_prefix_len a b = .ok (lcpLen a b)) ∧
    (∀ a b : List Nat, b.length < a.length → a.take b.length = b →
      count_prefix_len a b = .panic) :=
  ⟨count_prefix_len_ok, count_prefix_len_panic⟩

/-- C9 witness: the amended theorem applied at the concrete valid keys
`a/b`, `a/c` (longest common prefix of length 2) and at `a/bc`, `a/b`
(proper prefix, panic). -/
theorem c9_witness :
    count_prefix_len [97, 47, 98] [97, 47, 99]
      = .ok (lcpLen [97, 47, 98] [97, 47, 99]) ∧
    count_prefix_len [97, 47, 98, 98] [97, 47, 98] = .panic :=
  ⟨c9_count_prefix_len_amended.1 [97, 47, 98] [97, 47, 99] (by decide),
   c9_count_prefix_len_amended.2 [97, 47, 98, 98] [97, 47, 98] (by decide) (by decide)⟩

/-- C10: `create_refresh_token` embeds scope `AuthScope::Refresh` in the
signed claims regardless of `opts.scope`, defaults expiry to 90 days when
`expires_in` is `None`, and mints the random jti exactly when `opts.jti` is
`None`; `create_access_token` defaults scope to `AuthScope::Access` and
expiry to 2 hours when those options are `None`. -/
theorem c10_token_defaults :
    ∀ (opts : CreateTokensOpts) (randomStr : String),
      (create_refresh_token randomStr opts).claims.custom.scope
        = AuthScope.refresh.as_str ∧
      (opts.expires_in = none →
        (create_refresh_token randomStr opts).claims.expires_in
          = Duration.from_days 90) ∧
      (opts.jti = none →
        (create_refresh_token randomStr opts).claims.jwt_id = some randomStr) ∧
      (∀ j, opts.jti = some j →
        (create_refresh_token randomStr opts).claims.jwt_id = some j) ∧
      (opts.scope = none →
        (create_access_token opts).claims.custom.scope = AuthScope.access.as_str) ∧
      (opts.expires_in = none →
        (create_access_token opts).claims.expires_in = Duration.from_hours 2) := by
  intro opts randomStr
  refine ⟨rfl, ?_, ?_, ?_, ?_, ?_⟩
  · intro h
    simp [create_refresh_token, signClaims, Claims.with_custom_claims,
      Claims.with_audience, Claims.with_subject, Claims.with_jwt_id, h]
  · intro h
    simp [create_refresh_token, signClaims, Claims.with_custom_claims,
      Claims.with_audience, Claims.with_subject, Claims.with_jwt_id, h]
  · intro j h
    simp [create_refresh_token, signClaims, Claims.with_custom_claims,
      Claims.with_audience, Claims.with_subject, Claims.with_jwt_id, h]
  · intro h
    simp [create_access_token, signClaims, Claims.with_custom_claims,
      Claims.with_audience, Claims.with_subject, h]
  · intro h
    simp [create_access_token, signClaims, Claims.with_custom_claims,
      Claims.with_audience, Claims.with_subject, h]

/-- Concrete options for the C10 witness: a refresh-inappropriate scope is
supplied to show it is ignored, jti and expiry left to their defaults. -/
def optsEx : CreateTokensOpts :=
  ⟨"did:example:alice", [1, 2, 3], "did:web:pds.example", some AuthScope.access,
    none, none⟩

/-- C10 witness: the theorem applied at `optsEx` with a concrete random
string, every used hypothesis discharged by `rfl`. -/
theorem c10_witness :
    (create_refresh_token ("r4nd0m") optsEx).claims.custom.scope
      = AuthScope.refresh.as_str ∧
    (create_refresh_token ("r4nd0m") optsEx).claims.expires_in
      = Duration.from_days 90 ∧
    (create_refresh_token ("r4nd0m") optsEx).claims.jwt_id = some ("r4nd0m") ∧
    (create_access_token optsEx).claims.expires_in = Duration.from_hours 2 := by
  obtain ⟨h1, h2, h3, -, -, h6⟩ := c10_token_defaults optsEx ("r4nd0m")
  exact ⟨h1, h2 rfl, h3 rfl, h6 rfl⟩
